import Mathlib

/-!
Verification of the trade orchestration / ledger subsystem of the
smart-ape-defai-agent repository (Python), shallowly embedded in Lean 4.

Embedding conventions:
* Python `float` arithmetic is modelled exactly as IEEE binary64
  round-to-nearest-even over `ℚ` (53-bit significand, minimum exponent -1074;
  overflow to infinity is not modelled - every value in this development is far
  below the overflow threshold).
* Rational arithmetic inside the executable definitions is performed by
  `qadd`/`qsub`/`qmul`/`qdivi`, which build the result with `Rat.divInt` so that
  concrete instances evaluate by kernel reduction; the bridge lemmas
  `qadd_eq`/`qsub_eq`/`qmul_eq`/`qdivi_eq` prove they are exactly the field
  operations of `ℚ`.
* sqlite tables are lists of rows; `fetchone` is `List.find?`, `UPDATE ... WHERE`
  is `List.map` guarded on the key.
* network collaborators (chain RPC, wallet SDK, exchange contract) are passed in
  as explicit oracles; a Python exception raised by a collaborator call is an
  `Except.error` / `TxOutcome.raised` value.
* the on-chain side effects a run performs are collected in an explicit
  effect trace (`Eff`).
-/

/-- Exact rational addition, built with `Rat.divInt` (see `qadd_eq`). -/
def qadd (a b : ℚ) : ℚ := Rat.divInt (a.num * b.den + b.num * a.den) ((a.den : ℤ) * b.den)

/-- Exact rational subtraction, built with `Rat.divInt` (see `qsub_eq`). -/
def qsub (a b : ℚ) : ℚ := Rat.divInt (a.num * b.den - b.num * a.den) ((a.den : ℤ) * b.den)

/-- Exact rational multiplication, built with `Rat.divInt` (see `qmul_eq`). -/
def qmul (a b : ℚ) : ℚ := Rat.divInt (a.num * b.num) ((a.den : ℤ) * b.den)

/-- Exact rational division, built with `Rat.divInt` (see `qdivi_eq`). -/
def qdivi (a b : ℚ) : ℚ := Rat.divInt (a.num * b.den) ((a.den : ℤ) * b.num)

lemma qadd_eq (a b : ℚ) : qadd a b = a + b := by
  have ha : (a.den : ℤ) ≠ 0 := Int.natCast_ne_zero.mpr a.den_nz
  have hb : (b.den : ℤ) ≠ 0 := Int.natCast_ne_zero.mpr b.den_nz
  rw [qadd]
  conv_rhs => rw [← Rat.num_divInt_den a, ← Rat.num_divInt_den b,
    Rat.divInt_add_divInt _ _ ha hb]

lemma qsub_eq (a b : ℚ) : qsub a b = a - b := by
  have ha : (a.den : ℤ) ≠ 0 := Int.natCast_ne_zero.mpr a.den_nz
  have hb : (b.den : ℤ) ≠ 0 := Int.natCast_ne_zero.mpr b.den_nz
  rw [qsub]
  conv_rhs => rw [← Rat.num_divInt_den a, ← Rat.num_divInt_den b,
    Rat.divInt_sub_divInt _ _ ha hb]

lemma qmul_eq (a b : ℚ) : qmul a b = a * b := by
  rw [qmul]
  conv_rhs => rw [← Rat.num_divInt_den a, ← Rat.num_divInt_den b,
    Rat.divInt_mul_divInt']

lemma qdivi_eq (a b : ℚ) : qdivi a b = a / b := by
  rw [qdivi]
  conv_rhs => rw [div_eq_mul_inv, Rat.inv_def', ← Rat.num_divInt_den a,
    Rat.divInt_mul_divInt']

/-- Floor of a non-negative rational. -/
def qfloor (x : ℚ) : ℤ := ((x.num.toNat / x.den : ℕ) : ℤ)

/-- Round a non-negative rational to the nearest integer, ties to even
(the tie-breaking rule of IEEE round-to-nearest). -/
def rne (x : ℚ) : ℤ :=
  let f := qfloor x
  let r := qsub x ((f : ℤ) : ℚ)
  if r < mkRat 1 2 then f
  else if mkRat 1 2 < r then f + 1
  else if f % 2 = 0 then f else f + 1

/-- Fuel-driven floor of log base 2 (structural recursion, so that concrete
instances evaluate by kernel reduction). -/
def nlog2Aux : ℕ → ℕ → ℕ
  | 0, _ => 0
  | fuel+1, n => if n ≤ 1 then 0 else nlog2Aux fuel (n / 2) + 1

/-- Floor of log base 2 of a natural number (0 for 0 and 1). -/
def nlog2 (n : ℕ) : ℕ := nlog2Aux n n

/-- Floor of log base 2 of a positive rational. -/
def qlog2 (x : ℚ) : ℤ :=
  let n := x.num.toNat
  let d := x.den
  if d ≤ n then (nlog2 (n / d) : ℤ)
  else
    let k := nlog2 (d / n)
    if d = n * 2 ^ k then -(k : ℤ) else -((k : ℤ) + 1)

/-- `2 ^ e` in `ℚ` for an integer exponent. -/
def pow2 (e : ℤ) : ℚ := Rat.divInt (2 ^ e.toNat) (2 ^ (-e).toNat)

/-- Round a positive rational to the nearest IEEE binary64 value
(round-to-nearest-even, 53-bit significand, minimum exponent -1074). -/
def flPos (x : ℚ) : ℚ :=
  let e := max (qlog2 x - 52) (-1074)
  qmul ((rne (qdivi x (pow2 e)) : ℤ) : ℚ) (pow2 e)

/-- Round any rational to the nearest IEEE binary64 value: the value a Python
`float` holds for it. -/
def fl (x : ℚ) : ℚ :=
  if x = 0 then 0 else if 0 < x then flPos x else -flPos (-x)

/-- Python `int(x)` on a float: truncation toward zero. -/
def pyint (x : ℚ) : ℤ := if 0 ≤ x then qfloor x else -qfloor (-x)

/-- Python float multiplication of two doubles. -/
def fmul (a b : ℚ) : ℚ := fl (qmul a b)

/-- Python float subtraction of two doubles. -/
def fsub (a b : ℚ) : ℚ := fl (qsub a b)

/-- Python float division of two doubles. -/
def fdiv (a b : ℚ) : ℚ := fl (qdivi a b)

/-- `int(float(quote) * (1 - slippage / 100))` from `swap_on_uniswap`
(src/agent/custom_actions/trading/trade.py line 207, identically
src/trading/trade.py line 216), with Python float semantics; `slippage` is the
exact rational value of the Python float argument. -/
def compute_min_output (quote : ℕ) (slippage : ℚ) : ℤ :=
  pyint (fmul (fl (quote : ℚ)) (fsub 1 (fdiv (fl slippage) 100)))

example : compute_min_output 1000 1 = 990 := by decide
example : compute_min_output 1000 (mkRat 1 2) = 995 := by decide
example : compute_min_output 50000000000000000 (mkRat 1 2) = 49750000000000000 := by decide
example : compute_min_output 9007199254740993 0 = 9007199254740992 := by decide
example : compute_min_output 50000000000000000 150 = -25000000000000000 := by decide

/-!
## Trade Ledger (src/trading/operations.py)

The sqlite `trades` table is a list of `TradeRow`; the `wallet` table is a list
of `(id, info)` pairs. `cur.fetchone()` on a `SELECT ... WHERE` is `List.find?`,
`UPDATE ... WHERE tx_hash = ?` maps over every row with that hash, and the
`tx_hash TEXT UNIQUE` column constraint (src/db/setup.py line 50) makes an
`INSERT` with an already-present non-null hash raise, which `record_trade`
catches and turns into `false`. The chain RPC
(`web3.eth.get_transaction_receipt`) is an oracle of type `Chain`: `.error` is
a raised exception, `.ok none` is no receipt yet, `.ok (some st)` is a receipt
whose `status` field is `st`.
-/

/-- One row of the `trades` table. -/
structure TradeRow where
  wallet_id : ℕ
  token_in : String
  token_out : String
  amount_in : String
  min_amount_out : String
  status : String
  tx_hash : Option String
  gas_price : String
deriving DecidableEq, Repr

/-- Replace the `status` column of a row (the only column `UPDATE` ever sets). -/
def setStatus (r : TradeRow) (s : String) : TradeRow :=
  ⟨r.wallet_id, r.token_in, r.token_out, r.amount_in, r.min_amount_out, s,
   r.tx_hash, r.gas_price⟩

/-- The persisted ledger state: the `wallet` table and the `trades` table. -/
structure Db where
  wallet : List (ℕ × String)
  trades : List TradeRow
deriving DecidableEq, Repr

/-- The chain RPC receipt oracle: `.error ()` models
`get_transaction_receipt` raising, `.ok none` no receipt yet, `.ok (some st)` a
receipt with `status` field `st`. -/
def Chain : Type := String → Except Unit (Option ℤ)

/-- `pat` is a leading segment of `s` (structural recursion on both lists). -/
def charsStart (pat s : List Char) : Bool :=
  match pat, s with
  | [], _ => true
  | _ :: _, [] => false
  | a :: as, b :: bs => a == b && charsStart as bs

/-- `pat` occurs as a contiguous segment of `s`. -/
def charsContain (pat s : List Char) : Bool :=
  match s with
  | [] => charsStart pat []
  | _ :: rest => charsStart pat s || charsContain pat rest

/-- Python `str.startswith`. -/
def strStartsWith (s pat : String) : Bool := charsStart pat.data s.data

/-- `sqlite LIKE '%pat%'`: `pat` occurs as a substring of `info`. -/
def likeContains (info pat : String) : Bool := charsContain pat.data info.data

/-- `TradingOperations.record_trade` (src/trading/operations.py lines 53-90):
resolve the wallet id by `info LIKE '%wallet_address%'` (first match), fail with
`false` when absent, then `INSERT` the row with exactly the caller-supplied
`status` (whose Python default is `'PENDING'`); the `UNIQUE` constraint on
`tx_hash` makes the insert raise (caught, `false`) when the non-null hash is
already present. -/
def record_trade (db : Db) (wallet_address token_in token_out amount_in
    min_amount_out : String) (tx_hash : Option String) (gas_price : String)
    (status : String) : Bool × Db :=
  match db.wallet.find? (fun w => likeContains w.2 wallet_address) with
  | none => (false, db)
  | some w =>
    match tx_hash with
    | some h =>
      if db.trades.any (fun t => t.tx_hash == some h) then (false, db)
      else (true, ⟨db.wallet, db.trades ++
        [⟨w.1, token_in, token_out, amount_in, min_amount_out, status,
          some h, gas_price⟩]⟩)
    | none => (true, ⟨db.wallet, db.trades ++
        [⟨w.1, token_in, token_out, amount_in, min_amount_out, status,
          none, gas_price⟩]⟩)

/-- `TradingOperations.get_trade_status` (src/trading/operations.py lines
92-130). Returns the reported status, the resulting `trades` table, and the
list of receipt lookups issued against the chain. An unknown hash returns
`none`; a non-PENDING stored status is returned without any chain call; a
PENDING one is reconciled against the receipt; a raised receipt lookup is
caught and reported as `none` with the table unchanged. -/
def get_trade_status (chain : Chain) (trades : List TradeRow) (h : String) :
    Option String × List TradeRow × List String :=
  match trades.find? (fun t => t.tx_hash == some h) with
  | none => (none, trades, [])
  | some t =>
    if t.status = "PENDING" then
      match chain h with
      | .error _ => (none, trades, [h])
      | .ok none => (some "PENDING", trades, [h])
      | .ok (some st) =>
        let new_status := if st = 1 then "COMPLETED" else "FAILED"
        (some new_status,
         trades.map (fun r => if r.tx_hash == some h then setStatus r new_status else r),
         [h])
    else (some t.status, trades, [])

/-- `UPDATE trades SET status = new WHERE tx_hash = h` applied to one row. -/
def updRow (h : String) (new : String) (r : TradeRow) : TradeRow :=
  if r.tx_hash == some h then setStatus r new else r

/-- One iteration of the `update_pending_trades` loop body for hash `h`: look
up the receipt; a raise (`.error`) is caught and skipped (`continue`), no
receipt leaves the table unchanged, a receipt updates every row with that
hash. -/
def processOne (chain : Chain) (trades : List TradeRow) (h : String) :
    List TradeRow :=
  match chain h with
  | .error _ => trades
  | .ok none => trades
  | .ok (some st) =>
    trades.map (updRow h (if st = 1 then "COMPLETED" else "FAILED"))

/-- One iteration of the `update_pending_trades` loop on a selected `tx_hash`
column value: a NULL hash makes the receipt call raise, which the per-row
handler catches and skips. -/
def processOpt (chain : Chain) (trades : List TradeRow) (oh : Option String) :
    List TradeRow :=
  match oh with
  | none => trades
  | some h => processOne chain trades h

/-- `TradingOperations.update_pending_trades` (src/trading/operations.py lines
176-210): select the hashes of all PENDING rows up front, then resolve each
independently. -/
def update_pending_trades (chain : Chain) (trades : List TradeRow) :
    List TradeRow :=
  let pending := (trades.filter (fun r => r.status == "PENDING")).map
    (fun r => r.tx_hash)
  pending.foldl (processOpt chain) trades

example :
    (record_trade ⟨[(1, "wallet-a")], []⟩ "a" "ti" "to" "5" "4" none "0"
      "PENDING").1 = true := by decide
example :
    get_trade_status (fun _ => .ok none)
      [⟨1, "ti", "to", "5", "4", "PENDING", some "0xh", "0"⟩] "0xzz"
      = (none, [⟨1, "ti", "to", "5", "4", "PENDING", some "0xh", "0"⟩], []) := by decide
example :
    update_pending_trades (fun h => if h = "0xa" then .error () else .ok (some 1))
      [⟨1, "ti", "to", "5", "4", "PENDING", some "0xa", "0"⟩,
       ⟨1, "ti", "to", "5", "4", "PENDING", some "0xb", "0"⟩]
      = [⟨1, "ti", "to", "5", "4", "PENDING", some "0xa", "0"⟩,
         ⟨1, "ti", "to", "5", "4", "COMPLETED", some "0xb", "0"⟩] := by decide

/-!
## Allowance Manager and Trade Orchestrator
(src/agent/custom_actions/trading/trade.py)

`wallet.invoke_contract`, `wallet.estimate_gas` and the quote call are oracles
carried in `SwapEnv`. The on-chain writes a run performs are collected in an
effect trace (`Eff`); ERC-20 view calls (`allowance`, `balanceOf`) and quoting
are also traced so that "never calls X" claims are about the trace.
-/

/-- Outcome of a submitted contract invocation: mined successfully, mined but
reverted (`.success == False` with an `error` field), or the SDK call raised. -/
inductive TxOutcome
  | success
  | revert (err : String)
  | raised (err : String)
deriving DecidableEq, Repr

/-- One traced collaborator interaction of the swap workflow. -/
inductive Eff
  | readAllowance
  | submitApprove (amount : ℤ)
  | quoteCall
  | gasCall
  | submitSwap (amountIn : ℤ) (minOut : ℤ)
deriving DecidableEq, Repr

/-- `approve` (src/agent/custom_actions/trading/trade.py lines 34-75):
`read` is the `allowance` view call (`some e` when it raises), `st` the current
on-chain allowance it returns, `tx` the outcome of the `approve` invocation if
one is submitted. Returns the message, the resulting on-chain allowance and the
effect trace. -/
def approve (read : Option String) (tx : TxOutcome) (st : ℤ) (amount : ℤ) :
    String × ℤ × List Eff :=
  match read with
  | some e => ("Error: " ++ e, st, [Eff.readAllowance])
  | none =>
    if amount ≤ st then ("Already approved", st, [Eff.readAllowance])
    else
      match tx with
      | .success =>
        ("Approved successfully", amount, [Eff.readAllowance, Eff.submitApprove amount])
      | .revert e =>
        ("Error: Approval failed - " ++ e, st, [Eff.readAllowance, Eff.submitApprove amount])
      | .raised e =>
        ("Error: " ++ e, st, [Eff.readAllowance, Eff.submitApprove amount])

/-- Environment of one `swap_on_uniswap` run: token metadata, the wallet's
per-address balances, and the outcome of each collaborator call. -/
structure SwapEnv where
  decimals_in : ℕ
  decimals_out : ℕ
  symbol_in : String
  symbol_out : String
  balances : List ℚ
  readAllowance : Option String
  allowanceVal : ℤ
  approveTx : TxOutcome
  quote : Except String ℕ
  gasEstimate : Except String (Option String)
  swapTx : TxOutcome
  txHash : String
  txLink : String

/-- `int(token.to_atomic_amount(Decimal(x)))`: conversion of a whole-unit
decimal amount to atomic units for a token with `d` decimals (the `Decimal`
multiplication is exact, the final `int` truncates toward zero). -/
def atomic_amount (x : ℚ) (d : ℕ) : ℤ := pyint (qmul x (((10 : ℕ) ^ d : ℕ) : ℚ))

/-- The balance loop of `swap_on_uniswap` (lines 184-187): `balance` starts at
0 and accumulates `address.balance(token_in)` (whole units); `atomic_balance`
is assigned inside the loop body, so it is defined (as the atomic conversion of
the final sum) only when at least one address exists; with no address the later
read of `atomic_balance` raises `NameError`. -/
def balanceLoop (balances : List ℚ) (d : ℕ) : ℚ × Option ℤ :=
  balances.foldl
    (fun acc b =>
      let bal := qadd acc.1 b
      (bal, some (atomic_amount bal d)))
    (0, none)

/-- `swap_on_uniswap` (src/agent/custom_actions/trading/trade.py lines
150-265): validate the amount, convert to atomic units, check the summed
balance, delegate to `approve`, quote, compute the slippage-bounded minimum
output, estimate gas, submit the swap, and format the result. Returns the
user-visible message and the effect trace. -/
def swap_on_uniswap (env : SwapEnv) (amount_in : ℚ) (slippage : ℚ) :
    String × List Eff :=
  if fl amount_in ≤ 0 then ("Error: Input amount must be greater than 0", [])
  else
    let atomic_amount_in := atomic_amount amount_in env.decimals_in
    match (balanceLoop env.balances env.decimals_in).2 with
    | none => ("Error in swap operation: NameError", [])
    | some atomic_balance =>
      if atomic_balance = 0 then
        ("Error: Insufficient balance. Have " ++ toString atomic_balance ++
          ", need " ++ toString atomic_amount_in, [])
      else if atomic_balance < atomic_amount_in then
        ("Error: Insufficient balance. Have " ++ toString atomic_balance ++
          ", need " ++ toString atomic_amount_in, [])
      else
        let app := approve env.readAllowance env.approveTx env.allowanceVal
          atomic_amount_in
        if strStartsWith app.1 "Error" then
          ("Error approving Uniswap Router as spender: " ++ app.1, app.2.2)
        else
          match env.quote with
          | .error e =>
            ("Error getting quote: Failed to get quote: " ++ e,
             app.2.2 ++ [Eff.quoteCall])
          | .ok q =>
            let min_amount_out := compute_min_output q slippage
            match env.gasEstimate with
            | .error e =>
              ("Error estimating gas: " ++ e, app.2.2 ++ [Eff.quoteCall, Eff.gasCall])
            | .ok (some e) =>
              ("Error estimating gas: " ++ e, app.2.2 ++ [Eff.quoteCall, Eff.gasCall])
            | .ok none =>
              match env.swapTx with
              | .revert e =>
                ("Error executing swap: " ++ e,
                 app.2.2 ++ [Eff.quoteCall, Eff.gasCall,
                   Eff.submitSwap atomic_amount_in min_amount_out])
              | .raised e =>
                ("Error executing swap: " ++ e,
                 app.2.2 ++ [Eff.quoteCall, Eff.gasCall,
                   Eff.submitSwap atomic_amount_in min_amount_out])
              | .success =>
                let amount_out := qdivi ((min_amount_out : ℤ) : ℚ)
                  (((10 : ℕ) ^ env.decimals_out : ℕ) : ℚ)
                ("Successfully swapped " ++ toString amount_in ++ " " ++
                   env.symbol_in ++ " for at least " ++ toString amount_out ++
                   " " ++ env.symbol_out ++ "\n" ++
                   "Transaction hash: " ++ env.txHash ++ "\n" ++
                   "Transaction link: " ++ env.txLink,
                 app.2.2 ++ [Eff.quoteCall, Eff.gasCall,
                   Eff.submitSwap atomic_amount_in min_amount_out])

/-!
## Price path (src/trading/uniswap_client.py, src/agent/handle_agent_action.py)
-/

/-- `UniswapClient.get_token_price` (src/trading/uniswap_client.py lines
31-42): `oracle` is the `get_price_input` call returning atomic wei for one
token; on success the price is `float(price) / (10**18)` in Python float
arithmetic; any raised exception is caught and `0.0` returned. -/
def get_token_price (oracle : Except String ℤ) : ℚ :=
  match oracle with
  | .ok p => fdiv (fl ((p : ℤ) : ℚ)) (fl (((10 : ℕ) ^ 18 : ℕ) : ℚ))
  | .error _ => 0

/-- The `monitor_price` branch of `handle_agent_action`
(src/agent/handle_agent_action.py lines 109-117): fetch the price through
`get_token_price` and append it to the `price_monitoring` table. -/
def monitor_price (table : List (String × ℚ)) (token : String)
    (oracle : Except String ℤ) : List (String × ℚ) :=
  table ++ [(token, get_token_price oracle)]

example :
    (swap_on_uniswap
      ⟨6, 18, "USDC", "ETH", [200], none, 0, .success,
       .ok 50000000000000000, .ok none, .success, "0xh", "link"⟩
      100 (mkRat 1 2)).2
    = [Eff.readAllowance, Eff.submitApprove 100000000, Eff.quoteCall,
       Eff.gasCall, Eff.submitSwap 100000000 49750000000000000] := by decide
example : get_token_price (.error "no pool") = 0 := by decide

/-!
## Claim theorems
-/

/-- C2 counterexample. The claim states the minimum-output computation returns
`floor(quote * (1 - slippage/100))` for every non-negative integer quote and
every slippage in [0, 100). It fails at `quote = 2^53 + 1`, `slippage = 0.0`
(both in range): the conversion `float(quote)` rounds to `2^53`, so the code
returns 9007199254740992 while the exact floor is 9007199254740993. -/
theorem compute_min_output_float_loss_cx :
    compute_min_output 9007199254740993 0 = 9007199254740992 ∧
    ⌊(9007199254740993 : ℚ) * (1 - 0 / 100)⌋ = 9007199254740993 := by
  constructor
  · decide
  · norm_num

/-- C2 amended: on the spec's listed inputs the computation agrees with the
exact `floor(quote * (1 - slippage/100))`: it returns 990 for (1000, 1.0), 995
for (1000, 0.5) and 49750000000000000 for (50000000000000000, 0.5); the
agreement holds on these inputs (and whenever the double-precision evaluation
is exact), but not for arbitrary quotes beyond 2^53. -/
theorem compute_min_output_examples :
    (compute_min_output 1000 1 = 990 ∧ ⌊(1000 : ℚ) * (1 - 1 / 100)⌋ = 990) ∧
    (compute_min_output 1000 (mkRat 1 2) = 995 ∧
      ⌊(1000 : ℚ) * (1 - (1 / 2) / 100)⌋ = 995) ∧
    (compute_min_output 50000000000000000 (mkRat 1 2) = 49750000000000000 ∧
      ⌊(50000000000000000 : ℚ) * (1 - (1 / 2) / 100)⌋ = 49750000000000000) := by
  refine ⟨⟨by decide, by norm_num⟩, ⟨by decide, by norm_num⟩, by decide, by norm_num⟩

/-- C1 counterexample. The claim states a trade recorded with a null `tx_hash`
is stored with status FAILED. In the code `record_trade` has no such logic: it
stores the caller-supplied `status` (Python default `'PENDING'`) unchanged, so
recording with `tx_hash = None` and the default status stores a PENDING row
with no hash. -/
theorem record_trade_null_txhash_stored_pending_cx :
    (record_trade ⟨[(1, "wallet-a")], []⟩ "wallet-a" "USDC" "ETH" "100" "99"
        none "0" "PENDING")
      = (true, ⟨[(1, "wallet-a")],
          [⟨1, "USDC", "ETH", "100", "99", "PENDING", none, "0"⟩]⟩) ∧
    "PENDING" ≠ "FAILED" := by
  exact ⟨by decide, by decide⟩

/-- C1 amended: `record_trade` resolves the wallet and, when the non-null hash
is not already present, appends exactly one row carrying the caller-supplied
status unchanged - whatever the `tx_hash` is; the ledger itself never
forces FAILED on a hashless trade. -/
theorem record_trade_stores_caller_status
    (db : Db) (wa ti tout ai mao gp st : String) (txh : Option String)
    (w : ℕ × String)
    (hw : db.wallet.find? (fun p => likeContains p.2 wa) = some w)
    (hfresh : ∀ h, txh = some h →
      (db.trades.any (fun t => t.tx_hash == some h)) = false) :
    record_trade db wa ti tout ai mao txh gp st
      = (true, ⟨db.wallet, db.trades ++ [⟨w.1, ti, tout, ai, mao, st, txh, gp⟩]⟩) := by
  unfold record_trade
  rw [hw]
  cases txh with
  | none => rfl
  | some h => simp [hfresh h rfl]

theorem record_trade_stores_caller_status_witness :
    record_trade ⟨[(7, "xyz-wallet-b")], []⟩ "wallet-b" "A" "B" "1" "1"
        (some "0xabc") "2" "FOO"
      = (true, ⟨[(7, "xyz-wallet-b")],
          [⟨7, "A", "B", "1", "1", "FOO", some "0xabc", "2"⟩]⟩) :=
  record_trade_stores_caller_status ⟨[(7, "xyz-wallet-b")], []⟩ "wallet-b" "A"
    "B" "1" "1" "2" "FOO" (some "0xabc") (7, "xyz-wallet-b") (by decide)
    (by intro h hh; injection hh with hx; subst hx; decide)

/-- C10: `get_token_price` is total and never raises past its boundary: any
failure of the underlying price call yields `0.0`, and the `monitor_price`
dispatcher branch then records exactly that zero price for the token in the
`price_monitoring` table. -/
theorem get_token_price_error_returns_zero (e : String) (tok : String)
    (table : List (String × ℚ)) :
    get_token_price (.error e) = 0 ∧
    monitor_price table tok (.error e) = table ++ [(tok, 0)] :=
  ⟨rfl, rfl⟩

lemma setStatus_tx_hash (r : TradeRow) (s : String) :
    (setStatus r s).tx_hash = r.tx_hash := rfl

lemma setStatus_setStatus (r : TradeRow) (a b : String) :
    setStatus (setStatus r a) b = setStatus r b := rfl

lemma setStatus_eq_self (r : TradeRow) (s : String) (h : r.status = s) :
    setStatus r s = r := by
  cases r
  cases h
  rfl

/-- C5: a trade whose stored status is terminal (COMPLETED or FAILED) is
reported as-is by `get_trade_status`: same status, no receipt lookup issued,
table unchanged; and - for any call on a table whose non-null hashes are unique
(the `UNIQUE` column constraint) - every row either survives unchanged or is a
PENDING row turned COMPLETED/FAILED, so a status never reverses. -/
theorem get_trade_status_terminal_cached
    (chain : Chain) (trades : List TradeRow) (h : String) (t : TradeRow)
    (hfind : trades.find? (fun r => r.tx_hash == some h) = some t)
    (hterm : t.status = "COMPLETED" ∨ t.status = "FAILED") :
    get_trade_status chain trades h = (some t.status, trades, []) ∧
    (∀ (c : Chain) (tr : List TradeRow) (s : String),
      (∀ r1 ∈ tr, ∀ r2 ∈ tr, r1.tx_hash = some s → r2.tx_hash = some s → r1 = r2) →
      ∀ r ∈ (get_trade_status c tr s).2.1,
        r ∈ tr ∨
        ((r.status = "COMPLETED" ∨ r.status = "FAILED") ∧
          setStatus r "PENDING" ∈ tr)) := by
  constructor
  · have hne : ¬ t.status = "PENDING" := by
      rcases hterm with h1 | h1 <;> rw [h1] <;> decide
    simp [get_trade_status, hfind, hne]
  · intro c tr s hu r hr
    cases hf2 : tr.find? (fun x => x.tx_hash == some s) with
    | none =>
      simp [get_trade_status, hf2] at hr
      exact Or.inl hr
    | some u =>
      by_cases hup : u.status = "PENDING"
      · cases hcs : c s with
        | error v =>
          simp [get_trade_status, hf2, hup, hcs] at hr
          exact Or.inl hr
        | ok o =>
          cases o with
          | none =>
            simp [get_trade_status, hf2, hup, hcs] at hr
            exact Or.inl hr
          | some stv =>
            simp only [get_trade_status, hf2, hup, hcs, if_pos] at hr
            rcases List.mem_map.mp hr with ⟨r0, hr0, rfl⟩
            by_cases hm : (r0.tx_hash == some s) = true
            · have hr0m : r0.tx_hash = some s := by simpa using hm
              have hu0 : u ∈ tr := List.mem_of_find?_eq_some hf2
              have hum : u.tx_hash = some s := by
                have hps := List.find?_some hf2
                simpa using hps
              have heq : r0 = u := hu r0 hr0 u hu0 hr0m hum
              subst heq
              right
              constructor
              · by_cases h1 : stv = 1 <;> simp [hm, h1, setStatus]
              · simp only [hm, if_true]
                rw [setStatus_setStatus, setStatus_eq_self r0 "PENDING" hup]
                exact hr0
            · simp only [hm, if_false]
              exact Or.inl hr0
      · simp [get_trade_status, hf2, hup] at hr
        exact Or.inl hr

theorem get_trade_status_terminal_cached_witness :
    get_trade_status (fun _ => Except.error ())
      [⟨1, "USDC", "ETH", "5", "4", "COMPLETED", some "0xc", "0"⟩] "0xc"
      = (some "COMPLETED",
         [⟨1, "USDC", "ETH", "5", "4", "COMPLETED", some "0xc", "0"⟩], []) :=
  (get_trade_status_terminal_cached (fun _ => Except.error ())
    [⟨1, "USDC", "ETH", "5", "4", "COMPLETED", some "0xc", "0"⟩] "0xc"
    ⟨1, "USDC", "ETH", "5", "4", "COMPLETED", some "0xc", "0"⟩
    (by decide) (Or.inl rfl)).1

/-- C6: `get_trade_status` on a hash the ledger does not know returns `none`
(not an error) with the table unchanged; and on a stored PENDING trade whose
transaction has no receipt yet it returns PENDING, leaving the stored record
unchanged (one receipt lookup is issued, no write). -/
theorem get_trade_status_unknown_and_pending
    (chain : Chain) (trades : List TradeRow) (h : String) :
    (trades.find? (fun r => r.tx_hash == some h) = none →
      get_trade_status chain trades h = (none, trades, [])) ∧
    (∀ t, trades.find? (fun r => r.tx_hash == some h) = some t →
      t.status = "PENDING" → chain h = Except.ok none →
      get_trade_status chain trades h = (some "PENDING", trades, [h])) := by
  constructor
  · intro hf
    simp [get_trade_status, hf]
  · intro t hf hp hc
    simp [get_trade_status, hf, hp, hc]

theorem get_trade_status_unknown_and_pending_witness :
    get_trade_status (fun _ => Except.ok none)
      [⟨1, "USDC", "ETH", "5", "4", "PENDING", some "0xaa", "0"⟩] "0xdeadbeef"
      = (none, [⟨1, "USDC", "ETH", "5", "4", "PENDING", some "0xaa", "0"⟩], []) ∧
    get_trade_status (fun _ => Except.ok none)
      [⟨1, "USDC", "ETH", "5", "4", "PENDING", some "0xaa", "0"⟩] "0xaa"
      = (some "PENDING",
         [⟨1, "USDC", "ETH", "5", "4", "PENDING", some "0xaa", "0"⟩], ["0xaa"]) :=
  ⟨(get_trade_status_unknown_and_pending _ _ _).1 (by decide),
   (get_trade_status_unknown_and_pending _ _ _).2
     ⟨1, "USDC", "ETH", "5", "4", "PENDING", some "0xaa", "0"⟩
     (by decide) rfl rfl⟩

lemma updRow_tx_hash (h new : String) (r : TradeRow) :
    (updRow h new r).tx_hash = r.tx_hash := by
  unfold updRow
  split <;> rfl

lemma find_map_guard (ts : List TradeRow) (s : String) (f : TradeRow → TradeRow)
    (hf : ∀ r, (f r).tx_hash = r.tx_hash) :
    (ts.map f).find? (fun r => r.tx_hash == some s)
      = (ts.find? (fun r => r.tx_hash == some s)).map f := by
  induction ts with
  | nil => rfl
  | cons a l ih =>
    by_cases hp : (a.tx_hash == some s) = true
    · simp [List.find?, hf a, hp]
    · have hp2 : (a.tx_hash == some s) = false := by simpa using hp
      simp [List.find?, hf a, hp2, ih]

lemma processOne_find_ne (c : Chain) (ts : List TradeRow) (s1 s : String)
    (hne : s1 ≠ s) :
    (processOne c ts s1).find? (fun r => r.tx_hash == some s)
      = ts.find? (fun r => r.tx_hash == some s) := by
  unfold processOne
  cases c s1 with
  | error v => rfl
  | ok o =>
    cases o with
    | none => rfl
    | some stv =>
      rw [find_map_guard _ _ _ (updRow_tx_hash s1 _)]
      cases hft : ts.find? (fun r => r.tx_hash == some s) with
      | none => rfl
      | some t =>
        have hts : t.tx_hash = some s := by simpa using List.find?_some hft
        simp [updRow, hts, Ne.symm hne]

lemma processOne_find_eq (c : Chain) (ts : List TradeRow) (s : String) (stv : ℤ)
    (hc : c s = Except.ok (some stv)) (t : TradeRow)
    (hfind : ts.find? (fun r => r.tx_hash == some s) = some t) :
    (processOne c ts s).find? (fun r => r.tx_hash == some s)
      = some (setStatus t (if stv = 1 then "COMPLETED" else "FAILED")) := by
  have hts : t.tx_hash = some s := by simpa using List.find?_some hfind
  simp only [processOne, hc]
  rw [find_map_guard _ _ _ (updRow_tx_hash s _), hfind]
  simp [updRow, hts]

lemma foldl_preserve (c : Chain) (s : String) :
    ∀ (l : List (Option String)) (ts : List TradeRow) (u : TradeRow),
      some s ∉ l →
      ts.find? (fun r => r.tx_hash == some s) = some u →
      (l.foldl (processOpt c) ts).find? (fun r => r.tx_hash == some s)
        = some u := by
  intro l
  induction l with
  | nil => intro ts u _ h; exact h
  | cons oh l ih =>
    intro ts u hnot h
    rw [List.foldl_cons]
    have h1 : some s ∉ l := fun hh => hnot (List.mem_cons_of_mem _ hh)
    have h2 : (processOpt c ts oh).find? (fun r => r.tx_hash == some s) = some u := by
      cases oh with
      | none => exact h
      | some s1 =>
        have hne : s1 ≠ s := by
          intro he
          exact hnot (by rw [he]; exact List.mem_cons_self _ _)
        rw [show processOpt c ts (some s1) = processOne c ts s1 from rfl,
          processOne_find_ne c ts s1 s hne]
        exact h
    exact ih _ u h1 h2

lemma foldl_hits (c : Chain) (s : String) (stv : ℤ)
    (hc : c s = Except.ok (some stv)) :
    ∀ (l : List (Option String)) (ts : List TradeRow) (t : TradeRow),
      some s ∈ l →
      ts.find? (fun r => r.tx_hash == some s) = some t →
      (l.foldl (processOpt c) ts).find? (fun r => r.tx_hash == some s)
        = some (setStatus t (if stv = 1 then "COMPLETED" else "FAILED")) := by
  intro l
  induction l with
  | nil => intro ts t hm; exact absurd hm (List.not_mem_nil _)
  | cons oh l ih =>
    intro ts t hm hfind
    rw [List.foldl_cons]
    by_cases hoh : oh = some s
    · subst hoh
      have h1 : (processOpt c ts (some s)).find? (fun r => r.tx_hash == some s)
          = some (setStatus t (if stv = 1 then "COMPLETED" else "FAILED")) :=
        processOne_find_eq c ts s stv hc t hfind
      by_cases hml : some s ∈ l
      · have h2 := ih (processOpt c ts (some s)) _ hml h1
        rw [h2, setStatus_setStatus]
      · exact foldl_preserve c s l _ _ hml h1
    · have hm2 : some s ∈ l := by
        rcases List.mem_cons.mp hm with h | h
        · exact absurd h.symm hoh
        · exact h
      have h2 : (processOpt c ts oh).find? (fun r => r.tx_hash == some s)
          = some t := by
        cases oh with
        | none => exact hfind
        | some s1 =>
          have hne : s1 ≠ s := fun he => hoh (by rw [he])
          rw [show processOpt c ts (some s1) = processOne c ts s1 from rfl,
            processOne_find_ne c ts s1 s hne]
          exact hfind
      exact ih _ t hm2 h2

/-- C7 (sweep isolation): for any set of stored trades and any chain oracle -
including oracles that raise a transient error on every other hash -
`update_pending_trades` still resolves a PENDING trade whose own receipt lookup
succeeds: its stored row ends COMPLETED (receipt status 1) or FAILED
(otherwise). One trade's failure never aborts the sweep. -/
theorem update_pending_trades_isolation
    (chain : Chain) (trades : List TradeRow) (s : String) (stv : ℤ)
    (t : TradeRow)
    (hfind : trades.find? (fun r => r.tx_hash == some s) = some t)
    (hp : t.status = "PENDING")
    (hc : chain s = Except.ok (some stv)) :
    (update_pending_trades chain trades).find? (fun r => r.tx_hash == some s)
      = some (setStatus t (if stv = 1 then "COMPLETED" else "FAILED")) := by
  have ht_mem : t ∈ trades := List.mem_of_find?_eq_some hfind
  have ht_f : t ∈ trades.filter (fun r => r.status == "PENDING") := by
    rw [List.mem_filter]
    exact ⟨ht_mem, by simp [hp]⟩
  have hts : t.tx_hash = some s := by simpa using List.find?_some hfind
  have hm : some s ∈ (trades.filter (fun r => r.status == "PENDING")).map
      (fun r => r.tx_hash) := hts ▸ List.mem_map_of_mem _ ht_f
  unfold update_pending_trades
  exact foldl_hits chain s stv hc _ trades t hm hfind

theorem update_pending_trades_isolation_witness :
    (update_pending_trades
        (fun h => if h = "0xa" then Except.error () else Except.ok (some 1))
        [⟨1, "USDC", "ETH", "5", "4", "PENDING", some "0xa", "0"⟩,
         ⟨1, "USDC", "ETH", "5", "4", "PENDING", some "0xb", "0"⟩]).find?
      (fun r => r.tx_hash == some "0xb")
      = some ⟨1, "USDC", "ETH", "5", "4", "COMPLETED", some "0xb", "0"⟩ := by
  have h := update_pending_trades_isolation
    (fun h => if h = "0xa" then Except.error () else Except.ok (some 1))
    [⟨1, "USDC", "ETH", "5", "4", "PENDING", some "0xa", "0"⟩,
     ⟨1, "USDC", "ETH", "5", "4", "PENDING", some "0xb", "0"⟩]
    "0xb" 1 ⟨1, "USDC", "ETH", "5", "4", "PENDING", some "0xb", "0"⟩
    (by decide) rfl rfl
  simpa using h

/-- Recognizes an on-chain approval submission in an effect trace. -/
def isApproveTx : Eff → Bool
  | Eff.submitApprove _ => true
  | _ => false

/-- Number of on-chain approval transactions in an effect trace. -/
def countApproveTxs (effs : List Eff) : ℕ := (effs.filter isApproveTx).length

/-- C4: when the allowance read succeeds, `approve` returns `Already approved`
and submits nothing if the current allowance covers the amount, and otherwise
submits exactly one approval transaction for exactly the requested amount;
every call submits at most one approval transaction; and a second call for the
same or smaller amount after a first call that succeeded (read succeeded and
either the allowance already covered it or the approval transaction was mined)
adds no further transaction: at most one approval in total. -/
theorem approve_idempotent (st a1 a2 : ℤ) (tx1 tx2 : TxOutcome)
    (r2 : Option String)
    (hfirst : a1 ≤ st ∨ tx1 = TxOutcome.success)
    (hle : a2 ≤ a1) :
    (a1 ≤ st →
      approve none tx1 st a1 = ("Already approved", st, [Eff.readAllowance])) ∧
    (¬ a1 ≤ st →
      (approve none tx1 st a1).2.2 = [Eff.readAllowance, Eff.submitApprove a1]) ∧
    (∀ (rd : Option String) (tx : TxOutcome) (s b : ℤ),
      countApproveTxs (approve rd tx s b).2.2 ≤ 1) ∧
    countApproveTxs ((approve none tx1 st a1).2.2
        ++ (approve r2 tx2 (approve none tx1 st a1).2.1 a2).2.2) ≤ 1 := by
  refine ⟨?_, ?_, ?_, ?_⟩
  · intro h
    simp [approve, h]
  · intro h
    cases tx1 <;> simp [approve, h]
  · intro rd tx s b
    cases rd with
    | some e => simp [approve, countApproveTxs, isApproveTx]
    | none =>
      by_cases h : b ≤ s
      · simp [approve, h, countApproveTxs, isApproveTx]
      · cases tx <;> simp [approve, h, countApproveTxs, isApproveTx]
  · by_cases h1 : a1 ≤ st
    · have h2 : a2 ≤ st := le_trans hle h1
      cases r2 with
      | some e => simp [approve, h1, countApproveTxs, isApproveTx]
      | none => simp [approve, h1, h2, countApproveTxs, isApproveTx]
    · have htx : tx1 = TxOutcome.success := by
        rcases hfirst with h | h
        · exact absurd h h1
        · exact h
      subst htx
      cases r2 with
      | some e => simp [approve, h1, countApproveTxs, isApproveTx]
      | none => simp [approve, h1, hle, countApproveTxs, isApproveTx]

theorem approve_idempotent_witness :
    countApproveTxs ((approve none TxOutcome.success 0 3).2.2
        ++ (approve none TxOutcome.success
              (approve none TxOutcome.success 0 3).2.1 3).2.2) ≤ 1 :=
  (approve_idempotent 0 3 3 TxOutcome.success TxOutcome.success none
    (Or.inr rfl) (by decide)).2.2.2

lemma approve_no_swap (rd : Option String) (tx : TxOutcome) (st amount : ℤ)
    (a m : ℤ) : Eff.submitSwap a m ∉ (approve rd tx st amount).2.2 := by
  cases rd with
  | some e => simp [approve]
  | none =>
    by_cases h : amount ≤ st
    · simp [approve, h]
    · cases tx <;> simp [approve, h]

/-- C8: when the wallet's summed atomic balance of the input token is zero or
below the requested atomic amount, `swap_on_uniswap` returns the
insufficient-balance error reporting the held and needed amounts, and its
effect trace is empty: neither the Allowance Manager nor the Quote Gateway
(nor anything else) is called. -/
theorem swap_insufficient_balance_no_calls
    (env : SwapEnv) (amount slippage : ℚ) (hb : ℤ)
    (hpos : ¬ fl amount ≤ 0)
    (hbal : (balanceLoop env.balances env.decimals_in).2 = some hb)
    (hlt : hb = 0 ∨ hb < atomic_amount amount env.decimals_in) :
    swap_on_uniswap env amount slippage
      = ("Error: Insufficient balance. Have " ++ toString hb ++ ", need "
          ++ toString (atomic_amount amount env.decimals_in), []) := by
  simp only [swap_on_uniswap, hbal]
  rw [if_neg hpos]
  rcases hlt with rfl | hlt
  · simp
  · by_cases h0 : hb = 0
    · simp [h0]
    · rw [if_neg h0, if_pos hlt]

theorem swap_insufficient_balance_no_calls_witness :
    swap_on_uniswap
      ⟨6, 18, "USDC", "ETH", [0], none, 0, TxOutcome.success, Except.ok 1,
        Except.ok none, TxOutcome.success, "0xh", "link"⟩ 100 1
      = ("Error: Insufficient balance. Have 0, need 100000000", []) :=
  (swap_insufficient_balance_no_calls
    ⟨6, 18, "USDC", "ETH", [0], none, 0, TxOutcome.success, Except.ok 1,
      Except.ok none, TxOutcome.success, "0xh", "link"⟩ 100 1 0
    (by decide) (by decide) (Or.inl rfl)).trans (by decide)

/-- C9: if gas estimation fails - the call raises, or the returned estimate
carries an error - then no swap transaction is ever submitted (whatever else
the run does), and a run that reaches the gas-estimation step reports exactly
the gas-estimation error with a trace ending at the gas call. -/
theorem swap_gas_failure_not_submitted
    (env : SwapEnv) (amount slippage : ℚ) (e : String)
    (hgas : env.gasEstimate = Except.error e ∨
      env.gasEstimate = Except.ok (some e)) :
    (∀ a m, Eff.submitSwap a m ∉ (swap_on_uniswap env amount slippage).2) ∧
    (∀ hb, ¬ fl amount ≤ 0 →
      (balanceLoop env.balances env.decimals_in).2 = some hb →
      hb ≠ 0 → ¬ hb < atomic_amount amount env.decimals_in →
      ¬ strStartsWith (approve env.readAllowance env.approveTx env.allowanceVal
          (atomic_amount amount env.decimals_in)).1 "Error" = true →
      ∀ q, env.quote = Except.ok q →
      swap_on_uniswap env amount slippage
        = ("Error estimating gas: " ++ e,
           (approve env.readAllowance env.approveTx env.allowanceVal
             (atomic_amount amount env.decimals_in)).2.2
             ++ [Eff.quoteCall, Eff.gasCall])) := by
  constructor
  · intro a m hmem
    rcases hgas with hg | hg <;>
    · unfold swap_on_uniswap at hmem
      rw [hg] at hmem
      repeat' split at hmem
      all_goals simp_all [approve]
      all_goals repeat' split at hmem
      all_goals simp_all
  · intro hb hpos hbal hb0 hge happ q hq
    simp only [swap_on_uniswap, hbal, hq]
    rw [if_neg hpos, if_neg hb0, if_neg hge, if_neg happ]
    rcases hgas with hg | hg <;> simp only [hg]

theorem swap_gas_failure_not_submitted_witness :
    swap_on_uniswap
      ⟨6, 18, "USDC", "ETH", [200], none, 0, TxOutcome.success,
        Except.ok 1000, Except.error "execution reverted", TxOutcome.success,
        "0xh", "link"⟩ 100 1
      = ("Error estimating gas: execution reverted",
         [Eff.readAllowance, Eff.submitApprove 100000000, Eff.quoteCall,
          Eff.gasCall]) :=
  ((swap_gas_failure_not_submitted
    ⟨6, 18, "USDC", "ETH", [200], none, 0, TxOutcome.success,
      Except.ok 1000, Except.error "execution reverted", TxOutcome.success,
      "0xh", "link"⟩ 100 1 "execution reverted" (Or.inl rfl)).2 200000000
    (by decide) (by decide) (by decide) (by decide) (by decide) 1000
    rfl).trans (by decide)

/-- C3 counterexample. The claim states slippage values < 0 or >= 100 are
rejected with an InvalidSlippage validation error before any network call. The
code contains no slippage validation at all: with slippage 150 (>= 100) and
every collaborator call succeeding, the run reads the allowance, quotes,
estimates gas and submits the swap - with a negative minimum output - and
returns a success message, not an error. -/
theorem swap_no_slippage_validation_cx :
    (100 : ℚ) ≤ 150 ∧
    (swap_on_uniswap
        ⟨6, 18, "USDC", "ETH", [200], none, 0, TxOutcome.success,
          Except.ok 50000000000000000, Except.ok none, TxOutcome.success,
          "0xh", "link"⟩ 100 150).2
      = [Eff.readAllowance, Eff.submitApprove 100000000, Eff.quoteCall,
         Eff.gasCall, Eff.submitSwap 100000000 (-25000000000000000)] ∧
    strStartsWith
      (swap_on_uniswap
        ⟨6, 18, "USDC", "ETH", [200], none, 0, TxOutcome.success,
          Except.ok 50000000000000000, Except.ok none, TxOutcome.success,
          "0xh", "link"⟩ 100 150).1 "Error" = false := by
  refine ⟨by norm_num, by decide, by decide⟩

/-- C3 amended: `swap_on_uniswap` performs no slippage validation. For every
slippage value - negative or at least 100 included - a run whose balance
suffices and whose collaborator calls succeed proceeds through allowance,
quote and gas estimation and submits the swap on chain, with the minimum
output computed by the unvalidated formula `int(quote * (1 - slippage/100))`;
no InvalidSlippage rejection exists on any path. -/
theorem swap_accepts_out_of_range_slippage
    (env : SwapEnv) (amount slippage : ℚ) (hb : ℤ) (q : ℕ)
    (_hs : slippage < 0 ∨ 100 ≤ slippage)
    (hpos : ¬ fl amount ≤ 0)
    (hbal : (balanceLoop env.balances env.decimals_in).2 = some hb)
    (hb0 : hb ≠ 0)
    (hge : ¬ hb < atomic_amount amount env.decimals_in)
    (happ : ¬ strStartsWith (approve env.readAllowance env.approveTx
        env.allowanceVal (atomic_amount amount env.decimals_in)).1 "Error" = true)
    (hq : env.quote = Except.ok q)
    (hgas : env.gasEstimate = Except.ok none)
    (hswap : env.swapTx = TxOutcome.success) :
    Eff.submitSwap (atomic_amount amount env.decimals_in)
        (compute_min_output q slippage)
      ∈ (swap_on_uniswap env amount slippage).2 := by
  simp only [swap_on_uniswap, hbal, hq, hgas, hswap]
  rw [if_neg hpos, if_neg hb0, if_neg hge, if_neg happ]
  simp

theorem swap_accepts_out_of_range_slippage_witness :
    Eff.submitSwap 100000000 (-25000000000000000)
      ∈ (swap_on_uniswap
          ⟨6, 18, "WETH", "USDC", [200], none, 0, TxOutcome.success,
            Except.ok 50000000000000000, Except.ok none, TxOutcome.success,
            "0xh2", "link2"⟩ 100 150).2 := by
  have h := swap_accepts_out_of_range_slippage
    ⟨6, 18, "WETH", "USDC", [200], none, 0, TxOutcome.success,
      Except.ok 50000000000000000, Except.ok none, TxOutcome.success,
      "0xh2", "link2"⟩ 100 150 200000000 50000000000000000
    (Or.inr (by norm_num)) (by decide) (by decide) (by decide) (by decide)
    (by decide) rfl rfl rfl
  have e1 : atomic_amount 100 6 = 100000000 := by decide
  have e2 : compute_min_output 50000000000000000 150 = -25000000000000000 := by
    decide
  rw [e1, e2] at h
  exact h
